import Mathlib

/-!
Shallow embedding of the decision-and-dispatch pipeline of the repository:
the AI decision engine (risk/probability/timing scoring and the accept rule),
the flash-loan opportunity builder, the strategy registry, and the
ultra-high-frequency dispatch engine's queue and strategy selection.

Numbers in the source are JavaScript numbers.  All computations relevant to
the claims are exact on rationals, except the divisions in the risk-score
calculation which can produce Infinity or NaN; those are modelled explicitly
by the type JSNum below.  Everywhere else plain rationals are used.
-/

namespace Con20

/-- The closed enumeration of strategy categories (src: `StrategyType`). -/
inductive StrategyType where
  | ARBITRAGE
  | CROSS_DEX
  | TRIANGULAR_ARBITRAGE
  | FLASH_LOAN
  | MEV
  | SANDWICH
  | FRONTRUN
  | BACKRUN
  | LIQUIDATION
  | MARKET_MAKING
  | TREND_FOLLOWING
  | MEAN_REVERSION
  | MOMENTUM
  | STATISTICAL_ARBITRAGE
  | CROSS_CHAIN
  | JIT_LIQUIDITY
  | VOLUME_ANALYSIS
  | ORDERBOOK_IMBALANCE
  | FUNDING_RATE
  | BASIS_TRADING
deriving DecidableEq, BEq

/-- Risk tiers (src: `RiskLevel`). -/
inductive RiskLevel where
  | LOW
  | MEDIUM
  | HIGH
  | EXTREME
deriving DecidableEq, BEq

/-- The fields of an `Opportunity` that the decision engine reads. -/
structure Opportunity where
  type : StrategyType
  estimatedProfit : ℚ
  estimatedProfitUSD : ℚ
  confidence : ℚ
  gasEstimate : ℚ
  timestamp : ℚ
  expiresAt : ℚ
deriving DecidableEq

/-- JavaScript double values relevant here: a finite (exact rational) value,
the two infinities, or NaN.  Finite arithmetic is exact; the claims settled
over this type depend only on NaN/Infinity propagation, never on rounding. -/
inductive JSNum where
  | num (q : ℚ)
  | inf
  | ninf
  | nan
deriving DecidableEq

namespace JSNum

/-- JavaScript addition. -/
def jadd : JSNum → JSNum → JSNum
  | nan, _ => nan
  | _, nan => nan
  | num a, num b => num (a + b)
  | inf, ninf => nan
  | ninf, inf => nan
  | inf, _ => inf
  | _, inf => inf
  | ninf, _ => ninf
  | _, ninf => ninf

/-- JavaScript subtraction. -/
def jsub : JSNum → JSNum → JSNum
  | nan, _ => nan
  | _, nan => nan
  | num a, num b => num (a - b)
  | inf, inf => nan
  | ninf, ninf => nan
  | inf, _ => inf
  | ninf, _ => ninf
  | _, inf => ninf
  | _, ninf => inf

/-- JavaScript multiplication (0 · ∞ = NaN). -/
def jmul : JSNum → JSNum → JSNum
  | nan, _ => nan
  | _, nan => nan
  | num a, num b => num (a * b)
  | inf, num b => if b = 0 then nan else if 0 < b then inf else ninf
  | num a, inf => if a = 0 then nan else if 0 < a then inf else ninf
  | ninf, num b => if b = 0 then nan else if 0 < b then ninf else inf
  | num a, ninf => if a = 0 then nan else if 0 < a then ninf else inf
  | inf, inf => inf
  | ninf, ninf => inf
  | inf, ninf => ninf
  | ninf, inf => ninf

/-- JavaScript division (x/0 = ±∞ for x ≠ 0, 0/0 = NaN, ∞/∞ = NaN).
The source has no negative zero on the relevant paths, so 0 is +0. -/
def jdiv : JSNum → JSNum → JSNum
  | nan, _ => nan
  | _, nan => nan
  | num a, num b =>
      if b = 0 then (if a = 0 then nan else if 0 < a then inf else ninf)
      else num (a / b)
  | inf, num b => if b < 0 then ninf else inf
  | ninf, num b => if b < 0 then inf else ninf
  | num _, inf => num 0
  | num _, ninf => num 0
  | inf, inf => nan
  | inf, ninf => nan
  | ninf, inf => nan
  | ninf, ninf => nan

/-- JavaScript `Math.min` (NaN-propagating). -/
def jmin : JSNum → JSNum → JSNum
  | nan, _ => nan
  | _, nan => nan
  | ninf, _ => ninf
  | _, ninf => ninf
  | inf, b => b
  | a, inf => a
  | num a, num b => num (min a b)

/-- JavaScript `Math.max` (NaN-propagating). -/
def jmax : JSNum → JSNum → JSNum
  | nan, _ => nan
  | _, nan => nan
  | inf, _ => inf
  | _, inf => inf
  | ninf, b => b
  | a, ninf => a
  | num a, num b => num (max a b)

/-- `Math.min(Math.max(x, 0), 1)`, the clamp the engine applies to scores. -/
def clamp01 (x : JSNum) : JSNum := jmin (jmax x (num 0)) (num 1)

/-- The value is a finite number lying in the closed interval [0,1]. -/
def isUnit (x : JSNum) : Prop := ∃ q : ℚ, x = num q ∧ 0 ≤ q ∧ q ≤ 1

end JSNum

open JSNum

/-- Rolling per-category performance held by the decision engine
(src: `AIDecisionEngine.strategyPerformance` map values). -/
structure StrategyPerf where
  successRate : ℚ
  avgProfit : ℚ
  totalTrades : ℕ
  recentPerformance : List ℚ
deriving DecidableEq

namespace AIDecisionEngine

/-- Base risk by category (src: the `typeRisk` record inside
`AIDecisionEngine.calculateRiskScore`).  The record is total over the
enumeration, so the `|| 0.5` fallback in the source never fires. -/
def typeRisk : StrategyType → ℚ
  | .ARBITRAGE => 0.2
  | .CROSS_DEX => 0.3
  | .TRIANGULAR_ARBITRAGE => 0.4
  | .FLASH_LOAN => 0.7
  | .MEV => 0.6
  | .SANDWICH => 0.8
  | .FRONTRUN => 0.9
  | .BACKRUN => 0.5
  | .LIQUIDATION => 0.5
  | .MARKET_MAKING => 0.3
  | .TREND_FOLLOWING => 0.4
  | .MEAN_REVERSION => 0.4
  | .MOMENTUM => 0.5
  | .STATISTICAL_ARBITRAGE => 0.3
  | .CROSS_CHAIN => 0.6
  | .JIT_LIQUIDITY => 0.5
  | .VOLUME_ANALYSIS => 0.3
  | .ORDERBOOK_IMBALANCE => 0.4
  | .FUNDING_RATE => 0.3
  | .BASIS_TRADING => 0.3

/-- src: `AIDecisionEngine.calculateRiskScore`.  `now` stands for the
`Date.now()` call.  The division `(gasEstimate * 50) / estimatedProfitUSD`
is JavaScript division, so it is carried out in `JSNum`; the remaining
arithmetic is on exact rationals. -/
def calculateRiskScore (o : Opportunity) (now : ℚ) : JSNum :=
  let base : ℚ := typeRisk o.type
  let gasCostPercent : JSNum := jdiv (num (o.gasEstimate * 50)) (num o.estimatedProfitUSD)
  let s1 : JSNum := jadd (num base) (jmin (jdiv gasCostPercent (num 100)) (num 0.3))
  let timeToExpiry : ℚ := o.expiresAt - now
  let timeRisk : ℚ :=
    if timeToExpiry < 1000 then 0.3
    else if timeToExpiry < 5000 then 0.2
    else if timeToExpiry < 10000 then 0.1
    else 0
  let s2 : JSNum := jadd s1 (num timeRisk)
  let s3 : JSNum := jadd s2 (num ((1 - o.confidence) * 0.3))
  clamp01 s3

/-- src: `AIDecisionEngine.calculateProfitProbability`.  The denominator
`opportunity.gasEstimate * 50 || 1` replaces a (falsy) zero by 1, so the
division is never by zero and stays rational. -/
def calculateProfitProbability (perf : Option StrategyPerf) (o : Opportunity) : ℚ :=
  let p0 : ℚ := o.confidence
  let p1 : ℚ :=
    match perf with
    | some sp => (p0 + sp.successRate) / 2
    | none => p0
  let denom : ℚ := if o.gasEstimate * 50 = 0 then 1 else o.gasEstimate * 50
  let profitMargin : ℚ := o.estimatedProfitUSD / denom
  let p2 : ℚ :=
    if profitMargin > 5 then p1 + 0.1
    else if profitMargin > 2 then p1 + 0.05
    else if profitMargin < 1.2 then p1 - 0.2
    else p1
  min (max p2 0) 1

/-- src: `AIDecisionEngine.analyzeMarketConditions`; `hour` stands for
`new Date().getHours()` (a value in 0..23, hence `hour >= 0` always holds). -/
def analyzeMarketConditions (hour : ℕ) : ℚ :=
  let s0 : ℚ := 0.7
  let s1 : ℚ := if 9 ≤ hour ∧ hour ≤ 16 then s0 + 0.1 else s0
  let s2 : ℚ := if hour ≤ 4 then s1 - 0.1 else s1
  min (max s2 0) 1

/-- src: `AIDecisionEngine.getStrategyReliability` default table. -/
def defaultReliability : StrategyType → ℚ
  | .ARBITRAGE => 0.8
  | .CROSS_DEX => 0.75
  | .TRIANGULAR_ARBITRAGE => 0.7
  | .MARKET_MAKING => 0.7
  | .STATISTICAL_ARBITRAGE => 0.75
  | _ => 0.6

/-- src: `AIDecisionEngine.getStrategyReliability`. -/
def getStrategyReliability (perf : Option StrategyPerf) (t : StrategyType) : ℚ :=
  match perf with
  | none => defaultReliability t
  | some p => if p.totalTrades < 10 then defaultReliability t else p.successRate

/-- src: `AIDecisionEngine.analyzeTimingFactors`. -/
def analyzeTimingFactors (o : Opportunity) (now : ℚ) : ℚ :=
  let timeToExpiry : ℚ := o.expiresAt - now
  let age : ℚ := now - o.timestamp
  let s0 : ℚ := 1
  let s1 : ℚ := if age > 5000 then s0 - 0.3 else if age > 2000 then s0 - 0.1 else s0
  let s2 : ℚ :=
    if timeToExpiry < 1000 then s1 - 0.4
    else if timeToExpiry < 3000 then s1 - 0.2
    else s1
  min (max s2 0) 1

/-- src: `AIDecisionEngine.calculateConfidence`, the weighted sum of the five
factors followed by the clamp.  The risk score can be NaN (see
`calculateRiskScore`), hence the `JSNum` arithmetic; the sum is left
associated as in the source. -/
def calculateConfidence (riskScore profitProbability marketConditions strategyReliability timingScore : JSNum) : JSNum :=
  let t1 : JSNum := jmul (jsub (num 1) riskScore) (num 0.25)
  let t2 : JSNum := jmul profitProbability (num 0.30)
  let t3 : JSNum := jmul marketConditions (num 0.15)
  let t4 : JSNum := jmul strategyReliability (num 0.20)
  let t5 : JSNum := jmul timingScore (num 0.10)
  clamp01 (jadd (jadd (jadd (jadd t1 t2) t3) t4) t5)

/-- src: `AIDecisionEngine.shouldExecuteTrade`.  The guards compare finite
rational inputs, so plain rational arithmetic is faithful here. -/
def shouldExecuteTrade (confidence riskScore : ℚ) (o : Opportunity) : Bool :=
  if confidence < 0.6 then false
  else if riskScore > 0.7 ∧ confidence < 0.85 then false
  else if riskScore > 0.5 ∧ confidence < 0.75 then false
  else if o.estimatedProfitUSD < 1.0 then false
  else if o.estimatedProfitUSD - o.gasEstimate * 50 < 0.5 then false
  else true

/-- The per-category performance map of the engine, keyed by category. -/
def PerfState : Type := StrategyType → Option StrategyPerf

/-- The fresh record the source builds when a category has no entry yet. -/
def emptyPerf : StrategyPerf :=
  { successRate := 0, avgProfit := 0, totalTrades := 0, recentPerformance := [] }

/-- src: `AIDecisionEngine.updateStrategyPerformance`: push the outcome into
the rolling window, drop the oldest entry (`shift`) when the window exceeds
100, recompute the success rate from the window and the average profit by the
incremental mean, then store the record back into the map. -/
def updateStrategyPerformance (st : PerfState) (t : StrategyType) (success : Bool) (profit : ℚ) : PerfState :=
  let perf := (st t).getD emptyPerf
  let totalTrades : ℕ := perf.totalTrades + 1
  let pushed : List ℚ := perf.recentPerformance ++ [if success then 1 else 0]
  let recent : List ℚ := if pushed.length > 100 then pushed.tail else pushed
  let recentSuccesses : ℕ := (recent.filter (fun x => x == 1)).length
  let successRate : ℚ := (recentSuccesses : ℚ) / (recent.length : ℚ)
  let avgProfit : ℚ := (perf.avgProfit * ((totalTrades : ℚ) - 1) + profit) / (totalTrades : ℚ)
  fun t' =>
    if t' = t then
      some { successRate, avgProfit, totalTrades, recentPerformance := recent }
    else st t'

/-- The engine starts with an empty performance map. -/
def initialPerfState : PerfState := fun _ => none

/-- Applying a whole sequence of `updateStrategyPerformance` calls
(category, success flag, profit) in order. -/
def applyUpdates (events : List (StrategyType × Bool × ℚ)) : PerfState :=
  events.foldl (fun st e => updateStrategyPerformance st e.1 e.2.1 e.2.2) initialPerfState

end AIDecisionEngine

/-- src: `Token` as built by `FlashLoanEngine.createToken`. -/
structure Token where
  address : String
  symbol : String
  decimals : ℕ
  chainId : ℕ
  name : String
deriving DecidableEq

/-- The chain identifier used by the flash-loan engine
(`ChainId.ETHEREUM`; the enum itself lives in the types module). -/
def ChainIdETHEREUM : ℕ := 1

/-- Step kinds of a flash-loan plan (src: `FlashLoanStep.action`). -/
inductive FlashAction where
  | BORROW
  | SWAP
  | REPAY
deriving DecidableEq

/-- src: `FlashLoanStep` (optional fields are absent on some actions). -/
structure FlashLoanStep where
  action : FlashAction
  dex : Option String
  tokenIn : Option Token
  tokenOut : Option Token
  amountIn : ℚ
  expectedAmountOut : Option ℚ
  slippage : Option ℚ
deriving DecidableEq

/-- src: `FlashLoanOpportunity`. -/
structure FlashLoanOpportunity where
  id : String
  loanAmount : ℚ
  loanToken : Token
  estimatedProfit : ℚ
  estimatedProfitUSD : ℚ
  confidence : ℚ
  riskScore : ℚ
  steps : List FlashLoanStep
  gasEstimate : ℚ
  timestamp : ℚ
deriving DecidableEq

/-- The raw cross-venue price-discrepancy signal consumed by
`FlashLoanEngine.analyzeFlashLoanOpportunity`. -/
structure ArbitrageSignal where
  token : String
  buySource : String
  sellSource : String
  buyPrice : ℚ
  sellPrice : ℚ
  profitPercent : ℚ
deriving DecidableEq

namespace FlashLoanEngine

/-- src: `FlashLoanEngine.createToken`. -/
def createToken (symbol : String) (chainId : ℕ) : Token :=
  { address := "0x0000000000000000000000000000000000000000"
    symbol := symbol
    decimals := 18
    chainId := chainId
    name := symbol }

/-- src: `FlashLoanEngine.calculateConfidence` (base 0.5, fixed breakpoints
on the spread and the net profit, capped at 0.95). -/
def calculateConfidence (profitPercent netProfit : ℚ) : ℚ :=
  let c0 : ℚ := 0.5
  let c1 : ℚ :=
    if profitPercent > 2.0 then c0 + 0.3
    else if profitPercent > 1.0 then c0 + 0.2
    else if profitPercent > 0.5 then c0 + 0.1
    else c0
  let c2 : ℚ :=
    if netProfit > 1.0 then c1 + 0.2
    else if netProfit > 0.5 then c1 + 0.1
    else c1
  min c2 0.95

/-- src: `FlashLoanEngine.calculateRiskScore` (base 0.3, breakpoints on loan
size and spread, capped at 0.95). -/
def calculateRiskScore (loanAmount profitPercent : ℚ) : ℚ :=
  let r0 : ℚ := 0.3
  let r1 : ℚ :=
    if loanAmount > 500 then r0 + 0.3
    else if loanAmount > 100 then r0 + 0.2
    else if loanAmount > 50 then r0 + 0.1
    else r0
  let r2 : ℚ :=
    if profitPercent < 0.5 then r1 + 0.3
    else if profitPercent < 1.0 then r1 + 0.2
    else if profitPercent < 2.0 then r1 + 0.1
    else r1
  min r2 0.95

/-- The net-profit formula of `FlashLoanEngine.analyzeFlashLoanOpportunity`:
gross profit minus flash-loan fee (0.09% of the loan), minus the fixed gas
cost estimate (0.5 ETH), minus slippage (0.5% of gross). -/
def netProfitOf (arb : ArbitrageSignal) (loanAmount : ℚ) : ℚ :=
  let buyValue : ℚ := loanAmount * arb.buyPrice
  let sellValue : ℚ := loanAmount * arb.sellPrice
  let grossProfit : ℚ := sellValue - buyValue
  let flashLoanFee : ℚ := loanAmount * 0.0009
  let gasCost : ℚ := 0.5
  let slippageCost : ℚ := grossProfit * 0.005
  grossProfit - flashLoanFee - gasCost - slippageCost

/-- src: `FlashLoanEngine.analyzeFlashLoanOpportunity`.  `loanAmount` is
`config.trading.flashLoanAmountETH`, `ethPrice` the aggregated ETH price,
`id` the generated uuid and `now` the `Date.now()` stamp.  Returns `none`
("null") when the computed net profit is not positive.  The step amounts
divide by `buyPrice` with rational division; no claim depends on them (in
JavaScript a zero buy price would give Infinity there). -/
def analyzeFlashLoanOpportunity (arb : ArbitrageSignal) (loanAmount ethPrice : ℚ)
    (id : String) (now : ℚ) : Option FlashLoanOpportunity :=
  let flashLoanFee : ℚ := loanAmount * 0.0009
  let netProfit : ℚ := netProfitOf arb loanAmount
  if netProfit ≤ 0 then none
  else
    let confidence : ℚ := calculateConfidence arb.profitPercent netProfit
    let riskScore : ℚ := calculateRiskScore loanAmount arb.profitPercent
    let ethToken : Token := createToken "ETH" ChainIdETHEREUM
    let steps : List FlashLoanStep :=
      [ { action := .BORROW, dex := none, tokenIn := some ethToken, tokenOut := none,
          amountIn := loanAmount, expectedAmountOut := none, slippage := none }
      , { action := .SWAP, dex := some arb.buySource, tokenIn := some ethToken,
          tokenOut := some (createToken arb.token ChainIdETHEREUM),
          amountIn := loanAmount, expectedAmountOut := some (loanAmount / arb.buyPrice),
          slippage := some 0.5 }
      , { action := .SWAP, dex := some arb.sellSource,
          tokenIn := some (createToken arb.token ChainIdETHEREUM),
          tokenOut := some ethToken, amountIn := loanAmount / arb.buyPrice,
          expectedAmountOut := some ((loanAmount / arb.buyPrice) * arb.sellPrice),
          slippage := some 0.5 }
      , { action := .REPAY, dex := none, tokenIn := none, tokenOut := some ethToken,
          amountIn := loanAmount + flashLoanFee, expectedAmountOut := none,
          slippage := none } ]
    some
      { id := id
        loanAmount := loanAmount
        loanToken := ethToken
        estimatedProfit := netProfit
        estimatedProfitUSD := netProfit * ethPrice
        confidence := confidence
        riskScore := riskScore
        steps := steps
        gasEstimate := 500000
        timestamp := now }

end FlashLoanEngine

/-- src: `Strategy.parameters` as created by
`StrategyRegistry.createStrategy`. -/
structure StrategyParameters where
  slippage : ℚ
  maxRetries : ℕ
  timeout : ℕ
deriving DecidableEq

/-- src: `Strategy` — the data fields of a strategy record.  The `execute`
and `analyze` closures of the source are behaviour, not data; they are
supplied by the external execution capability and are not part of any claim
settled here. -/
structure Strategy where
  id : String
  name : String
  type : StrategyType
  riskLevel : RiskLevel
  enabled : Bool
  priority : ℤ
  minProfitUSD : ℚ
  maxGasPrice : ℚ
  successRate : ℚ
  totalTrades : ℕ
  profitabletrades : ℕ
  totalProfitUSD : ℚ
  averageExecutionTime : ℚ
  lastExecuted : Option ℚ
  parameters : StrategyParameters
deriving DecidableEq

/-- src: `TradeResult` (optional fields follow the source's optional use). -/
structure TradeResult where
  success : Bool
  profit : Option ℚ
  profitUSD : Option ℚ
  gasUsed : Option ℚ
  executionTime : ℚ
  timestamp : ℚ
deriving DecidableEq

/-- Stable insertion step for a descending sort by `key`: the inserted
element goes before the first element whose key is not greater, so earlier
elements stay before later elements of equal key.  This models JavaScript's
(specified-stable) `Array.prototype.sort` with the comparator
`(a, b) => key(b) - key(a)`. -/
def insertKeyDesc {α β : Type} [LinearOrder β] (key : α → β) (x : α) : List α → List α
  | [] => [x]
  | y :: ys => if key y ≤ key x then x :: y :: ys else y :: insertKeyDesc key x ys

/-- Stable descending sort by `key` (see `insertKeyDesc`). -/
def sortKeyDesc {α β : Type} [LinearOrder β] (key : α → β) : List α → List α
  | [] => []
  | x :: xs => insertKeyDesc key x (sortKeyDesc key xs)

/-- The first element of the list attaining the maximal key, if any.  This is
what `list.sort(descending)[0]` selects under a stable sort. -/
def firstMaxBy {α β : Type} [LinearOrder β] (key : α → β) : List α → Option α
  | [] => none
  | x :: xs =>
    match firstMaxBy key xs with
    | none => some x
    | some y => if key y ≤ key x then some x else some y

namespace StrategyRegistry

/-- The registry state: its strategy records in registration (insertion)
order.  The source keeps them in a `Map` keyed by generated uuid; `values()`
iterates in insertion order and keys are unique. -/
def Registry : Type := List Strategy

/-- src: `StrategyRegistry.getStrategiesByType`. -/
def getStrategiesByType (rs : Registry) (t : StrategyType) : List Strategy :=
  rs.filter (fun s => decide (s.type = t))

/-- The record transformation of `StrategyRegistry.updateStrategyPerformance`
(lines after the presence guard): bump the counters, recompute the success
rate and the running-average execution time, stamp `lastExecuted`. -/
def applyOutcome (s : Strategy) (result : TradeResult) (now : ℚ) : Strategy :=
  let totalTrades : ℕ := s.totalTrades + 1
  let profitabletrades : ℕ :=
    if result.success then s.profitabletrades + 1 else s.profitabletrades
  let totalProfitUSD : ℚ :=
    if result.success then s.totalProfitUSD + (result.profitUSD.getD 0) else s.totalProfitUSD
  { s with
    totalTrades := totalTrades
    profitabletrades := profitabletrades
    totalProfitUSD := totalProfitUSD
    successRate := (profitabletrades : ℚ) / (totalTrades : ℚ)
    averageExecutionTime :=
      (s.averageExecutionTime * ((totalTrades : ℚ) - 1) + result.executionTime) / (totalTrades : ℚ)
    lastExecuted := some now }

/-- src: `StrategyRegistry.updateStrategyPerformance`.  `strategies.get(id)`
finds the (unique) record with that id — here the first match in
registration order — and mutates it in place; an absent id returns with no
change. -/
def updateStrategyPerformance : Registry → String → TradeResult → ℚ → Registry
  | [], _, _, _ => []
  | s :: rest, id, result, now =>
    if s.id = id then applyOutcome s result now :: rest
    else s :: updateStrategyPerformance rest id result now

/-- The ranking key of `getTopPerformingStrategies`:
success rate × cumulative profit. -/
def perfScore (s : Strategy) : ℚ := s.successRate * s.totalProfitUSD

/-- src: `StrategyRegistry.getTopPerformingStrategies`: keep records with at
least one trade, sort by `perfScore` descending (stable JavaScript sort),
take the first `limit`. -/
def getTopPerformingStrategies (rs : Registry) (limit : ℕ) : List Strategy :=
  (sortKeyDesc perfScore (rs.filter (fun s => decide (0 < s.totalTrades)))).take limit

end StrategyRegistry

namespace UltraHighFrequencyEngine

/-- src: `UltraHighFrequencyEngine.maxQueueSize` (one million). -/
def maxQueueSize : ℕ := 1000000

/-- src: `UltraHighFrequencyEngine.addOpportunity`: append to the queue only
while it is below capacity; otherwise the call returns leaving the queue
unchanged (the function is total — nothing is thrown and nothing blocks). -/
def addOpportunity (queue : List Opportunity) (o : Opportunity) : List Opportunity :=
  if queue.length < maxQueueSize then queue ++ [o] else queue

/-- Outcome shape of `UltraHighFrequencyEngine.executeOpportunity`: rejected
by the AI confidence gate, rejected for lack of a matching strategy, or
handed to a strategy for execution. -/
inductive ExecOutcome where
  | rejectedLowConfidence
  | rejectedNoStrategy
  | executed (s : Strategy)
deriving DecidableEq

/-- The strategy selection inside `executeOpportunity`:
`strategyRegistry.getStrategiesByType(opportunity.type)` followed by
`strategies.sort((a, b) => b.priority - a.priority)[0]` — the stable sort
makes this the first registered record of maximal priority among the
matches.  Note the filter is by category only; the `enabled` flag is not
consulted. -/
def selectStrategy (rs : StrategyRegistry.Registry) (t : StrategyType) : Option Strategy :=
  (sortKeyDesc Strategy.priority (StrategyRegistry.getStrategiesByType rs t)).head?

/-- src: `UltraHighFrequencyEngine.executeOpportunity`, reduced to its
decision structure: the AI gate (`aiProbability < threshold` rejects), then
strategy lookup (empty list rejects), then execution with the selected
strategy.  `aiProbability` stands for the predictor's output and `threshold`
for `config.ai.confidenceThreshold`. -/
def executeOpportunity (aiProbability threshold : ℚ) (rs : StrategyRegistry.Registry)
    (t : StrategyType) : ExecOutcome :=
  if aiProbability < threshold then .rejectedLowConfidence
  else
    match selectStrategy rs t with
    | none => .rejectedNoStrategy
    | some s => .executed s

end UltraHighFrequencyEngine

/-! ### Claim-derived comparison definitions and concrete sample inputs -/

/-- Spec-claim variant of `getTopPerformingStrategies` (claim C8 wording):
same filter, ranked by score descending, but ties broken by identifier
(ascending) instead of by position.  Used only to compare against the
source-derived definition. -/
def insertScoreIdTie (x : Strategy) : List Strategy → List Strategy
  | [] => [x]
  | y :: ys =>
    if StrategyRegistry.perfScore y < StrategyRegistry.perfScore x ∨
        (StrategyRegistry.perfScore y = StrategyRegistry.perfScore x ∧ x.id ≤ y.id) then
      x :: y :: ys
    else y :: insertScoreIdTie x ys

/-- Spec-claim variant sort for C8 (score descending, identifier tie-break). -/
def sortScoreIdTie : List Strategy → List Strategy
  | [] => []
  | x :: xs => insertScoreIdTie x (sortScoreIdTie xs)

/-- Spec-claim variant of `getTopPerformingStrategies` for C8. -/
def getTopPerformingStrategiesIdTie (rs : List Strategy) (limit : ℕ) : List Strategy :=
  (sortScoreIdTie (rs.filter (fun s => decide (0 < s.totalTrades)))).take limit

/-- A sample opportunity used by witnesses: comfortable profit, low cost,
far-away expiry. -/
def sampleOpportunity : Opportunity :=
  { type := .ARBITRAGE
    estimatedProfit := 5
    estimatedProfitUSD := 10
    confidence := 0.9
    gasEstimate := 0.001
    timestamp := 0
    expiresAt := 60000 }

/-- The boundary input for C3: zero estimated profit together with zero gas
estimate, making `(gasEstimate * 50) / estimatedProfitUSD` the JavaScript
division `0 / 0 = NaN`. -/
def zeroCostZeroProfitOpportunity : Opportunity :=
  { type := .ARBITRAGE
    estimatedProfit := 0
    estimatedProfitUSD := 0
    confidence := 0.5
    gasEstimate := 0
    timestamp := 0
    expiresAt := 100000 }

/-- Invariant of the decision engine's per-category rolling window: the
window never exceeds 100 entries and the stored success rate is the number
of successful entries divided by the window length. -/
def PerfInv (st : AIDecisionEngine.PerfState) : Prop :=
  ∀ (t : StrategyType) (p : StrategyPerf), st t = some p →
    p.recentPerformance.length ≤ 100 ∧
    p.successRate = (((p.recentPerformance.filter (fun x => x == 1)).length : ℚ) /
      (p.recentPerformance.length : ℚ))

/-- The performance record reached after one successful ARBITRAGE update
(profit 5) from the fresh engine; used by the C4 witness. -/
def oneTradePerf : StrategyPerf :=
  { successRate := 1, avgProfit := 5, totalTrades := 1, recentPerformance := [1] }

/-- A sample strategy record used by witnesses. -/
def sampleStrategy : Strategy :=
  { id := "strategy-1"
    name := "Simple Arbitrage 1"
    type := .ARBITRAGE
    riskLevel := .LOW
    enabled := true
    priority := 100
    minProfitUSD := 0.5
    maxGasPrice := 50
    successRate := 0
    totalTrades := 0
    profitabletrades := 0
    totalProfitUSD := 0
    averageExecutionTime := 0
    lastExecuted := none
    parameters := { slippage := 0.5, maxRetries := 3, timeout := 5000 } }

/-- A sample successful trade result used by witnesses. -/
def sampleTradeResult : TradeResult :=
  { success := true
    profit := some 2
    profitUSD := some 4
    gasUsed := some 100000
    executionTime := 7
    timestamp := 42 }

/-- A matching but disabled strategy, for the C7 counterexample. -/
def disabledStrategy : Strategy :=
  { sampleStrategy with id := "strategy-d", enabled := false }

/-- Tie-breaking probe for C8: registered first, identifier "b", one
profitable trade, score 1·1. -/
def tieStrategyB : Strategy :=
  { sampleStrategy with
    id := "b", totalTrades := 1, profitabletrades := 1,
    successRate := 1, totalProfitUSD := 1 }

/-- Tie-breaking probe for C8: registered second, identifier "a", identical
score to `tieStrategyB`. -/
def tieStrategyA : Strategy :=
  { sampleStrategy with
    id := "a", totalTrades := 1, profitabletrades := 1,
    successRate := 1, totalProfitUSD := 1 }

/-- The spec's worked example signal: buy at 1.00, sell at 1.01, a 1% spread. -/
def sampleSignal : ArbitrageSignal :=
  { token := "USDC"
    buySource := "uniswap"
    sellSource := "sushiswap"
    buyPrice := 1
    sellPrice := 1.01
    profitPercent := 1 }

/-! ### Theorems -/

/-- A clamped rational lies in [0,1]. -/
theorem clamp_mem_unit (x : ℚ) : 0 ≤ min (max x 0) 1 ∧ min (max x 0) 1 ≤ 1 :=
  ⟨le_min (le_max_right x 0) zero_le_one, min_le_right _ 1⟩

/-- `clamp01` of a finite value is that value clamped. -/
theorem clamp01_num (q : ℚ) : clamp01 (num q) = num (min (max q 0) 1) := rfl

/-- `clamp01` of negative infinity is 0. -/
theorem clamp01_ninf : clamp01 JSNum.ninf = num 0 := by
  show jmin (num 0) (num 1) = num 0
  norm_num [jmin]

/-- `clamp01` of a finite value is a unit-interval value. -/
theorem isUnit_clamp01_num (q : ℚ) : isUnit (clamp01 (num q)) :=
  ⟨min (max q 0) 1, clamp01_num q, clamp_mem_unit q⟩

/-- Finite-over-finite JavaScript division is NaN only for 0/0. -/
theorem jdiv_num_ne_nan {a b : ℚ} (h : ¬(a = 0 ∧ b = 0)) :
    jdiv (num a) (num b) ≠ JSNum.nan := by
  simp only [jdiv]
  split_ifs with h1 h2 h3 <;> simp_all

/-- The risk-score shape: base plus the capped cost ratio plus finite terms,
clamped; a unit value whenever the cost ratio is not NaN. -/
theorem isUnit_riskShape (base timeRisk confRisk : ℚ) (gcp : JSNum)
    (h : gcp ≠ JSNum.nan) :
    isUnit (clamp01 (jadd (jadd (jadd (num base) (jmin (jdiv gcp (num 100)) (num 0.3)))
      (num timeRisk)) (num confRisk))) := by
  cases gcp with
  | nan => exact absurd rfl h
  | num q =>
    have : jdiv (num q) (num 100) = num (q / 100) := by norm_num [jdiv]
    rw [this]
    show isUnit (clamp01 (num _))
    exact isUnit_clamp01_num _
  | inf =>
    have : jdiv JSNum.inf (num 100) = JSNum.inf := by norm_num [jdiv]
    rw [this]
    show isUnit (clamp01 (num _))
    exact isUnit_clamp01_num _
  | ninf =>
    have : jdiv JSNum.ninf (num 100) = JSNum.ninf := by norm_num [jdiv]
    rw [this]
    show isUnit (clamp01 JSNum.ninf)
    rw [clamp01_ninf]
    exact ⟨0, rfl, le_refl 0, zero_le_one⟩

/-- Characterization of the accept rule (helper shared by several proofs). -/
theorem shouldExecuteTrade_iff (c r : ℚ) (o : Opportunity) :
    AIDecisionEngine.shouldExecuteTrade c r o = true ↔
      0.6 ≤ c ∧ ¬(0.7 < r ∧ c < 0.85) ∧ ¬(0.5 < r ∧ c < 0.75) ∧
      1.0 ≤ o.estimatedProfitUSD ∧ 0.5 ≤ o.estimatedProfitUSD - o.gasEstimate * 50 := by
  unfold AIDecisionEngine.shouldExecuteTrade
  split_ifs with h1 h2 h3 h4 h5
  · simp only [Bool.false_eq_true, false_iff]
    rintro ⟨hc, -, -, -, -⟩; linarith
  · simp only [Bool.false_eq_true, false_iff]
    rintro ⟨-, hn, -, -, -⟩; exact hn h2
  · simp only [Bool.false_eq_true, false_iff]
    rintro ⟨-, -, hn, -, -⟩; exact hn h3
  · simp only [Bool.false_eq_true, false_iff]
    rintro ⟨-, -, -, hp, -⟩; linarith
  · simp only [Bool.false_eq_true, false_iff]
    rintro ⟨-, -, -, -, hg⟩; linarith
  · simp only [true_iff]
    exact ⟨le_of_not_lt h1, h2, h3, le_of_not_lt h4, le_of_not_lt h5⟩

/-- C2: for every raw price-discrepancy signal, loan amount, price, id and
timestamp, `analyzeFlashLoanOpportunity` returns `none` exactly when
net profit = gross − flash-loan fee − gas − slippage is ≤ 0, and any
returned opportunity carries that net profit, which is positive. -/
theorem analyzeFlashLoanOpportunity_profit_positive
    (arb : ArbitrageSignal) (loanAmount ethPrice : ℚ) (id : String) (now : ℚ) :
    (FlashLoanEngine.analyzeFlashLoanOpportunity arb loanAmount ethPrice id now = none ↔
      FlashLoanEngine.netProfitOf arb loanAmount ≤ 0) ∧
    (∀ opp : FlashLoanOpportunity,
      FlashLoanEngine.analyzeFlashLoanOpportunity arb loanAmount ethPrice id now = some opp →
      opp.estimatedProfit = FlashLoanEngine.netProfitOf arb loanAmount ∧
      0 < opp.estimatedProfit) := by
  simp only [FlashLoanEngine.analyzeFlashLoanOpportunity]
  split_ifs with h
  · exact ⟨by simp [h], fun opp hopp => absurd hopp (by simp)⟩
  · refine ⟨by simp [h], fun opp hopp => ?_⟩
    rw [Option.some_inj] at hopp
    subst hopp
    exact ⟨rfl, lt_of_not_le h⟩

/-- Witness for C2: with the spec's example signal (1% spread), a 10 ETH loan
is not viable (net profit ≤ 0, result null), while a 100 ETH loan is viable
(result non-null). -/
theorem analyzeFlashLoanOpportunity_profit_positive_witness :
    FlashLoanEngine.analyzeFlashLoanOpportunity sampleSignal 10 2000 "op-a" 0 = none ∧
    FlashLoanEngine.analyzeFlashLoanOpportunity sampleSignal 100 2000 "op-b" 0 ≠ none := by
  constructor
  · exact (analyzeFlashLoanOpportunity_profit_positive sampleSignal 10 2000 "op-a" 0).1.mpr
      (by norm_num [FlashLoanEngine.netProfitOf, sampleSignal])
  · intro hnone
    have hle := (analyzeFlashLoanOpportunity_profit_positive sampleSignal 100 2000 "op-b" 0).1.mp hnone
    norm_num [FlashLoanEngine.netProfitOf, sampleSignal] at hle

/-- C3 (amended): with the sole exception of inputs having both zero
estimated profit and zero gas estimate (where the cost-ratio division is the
JavaScript `0 / 0 = NaN` and the risk score and blended confidence become
NaN), every sub-score of the decision engine — risk score, profit
probability, market-condition score, timing score, and the blended
confidence built from them — is a finite value in [0,1], for all inputs
including zero or negative profit, cost and confidence. -/
theorem decisionEngine_scores_in_unit_interval
    (o : Opportunity) (now : ℚ) (hour : ℕ) (perf perfR : Option StrategyPerf)
    (h : ¬(o.estimatedProfitUSD = 0 ∧ o.gasEstimate = 0)) :
    isUnit (AIDecisionEngine.calculateRiskScore o now) ∧
    (0 ≤ AIDecisionEngine.calculateProfitProbability perf o ∧
      AIDecisionEngine.calculateProfitProbability perf o ≤ 1) ∧
    (0 ≤ AIDecisionEngine.analyzeMarketConditions hour ∧
      AIDecisionEngine.analyzeMarketConditions hour ≤ 1) ∧
    (0 ≤ AIDecisionEngine.analyzeTimingFactors o now ∧
      AIDecisionEngine.analyzeTimingFactors o now ≤ 1) ∧
    isUnit (AIDecisionEngine.calculateConfidence
      (AIDecisionEngine.calculateRiskScore o now)
      (num (AIDecisionEngine.calculateProfitProbability perf o))
      (num (AIDecisionEngine.analyzeMarketConditions hour))
      (num (AIDecisionEngine.getStrategyReliability perfR o.type))
      (num (AIDecisionEngine.analyzeTimingFactors o now))) := by
  have hrisk : isUnit (AIDecisionEngine.calculateRiskScore o now) := by
    have hg : jdiv (num (o.gasEstimate * 50)) (num o.estimatedProfitUSD) ≠ JSNum.nan := by
      apply jdiv_num_ne_nan
      rintro ⟨hga, hpr⟩
      exact h ⟨hpr, by
        have : o.gasEstimate = 0 ∨ (50 : ℚ) = 0 := mul_eq_zero.mp hga
        rcases this with hg0 | h50
        · exact hg0
        · norm_num at h50⟩
    exact isUnit_riskShape _ _ _ _ hg
  refine ⟨hrisk, clamp_mem_unit _, clamp_mem_unit _, clamp_mem_unit _, ?_⟩
  obtain ⟨r, hr, -, -⟩ := hrisk
  rw [hr]
  simp only [AIDecisionEngine.calculateConfidence, jsub, jmul, jadd]
  exact isUnit_clamp01_num _

/-- Witness for C3 at a benign concrete opportunity. -/
theorem decisionEngine_scores_in_unit_interval_witness :
    isUnit (AIDecisionEngine.calculateRiskScore sampleOpportunity 0) ∧
    (0 ≤ AIDecisionEngine.calculateProfitProbability none sampleOpportunity ∧
      AIDecisionEngine.calculateProfitProbability none sampleOpportunity ≤ 1) ∧
    (0 ≤ AIDecisionEngine.analyzeMarketConditions 10 ∧
      AIDecisionEngine.analyzeMarketConditions 10 ≤ 1) ∧
    (0 ≤ AIDecisionEngine.analyzeTimingFactors sampleOpportunity 0 ∧
      AIDecisionEngine.analyzeTimingFactors sampleOpportunity 0 ≤ 1) ∧
    isUnit (AIDecisionEngine.calculateConfidence
      (AIDecisionEngine.calculateRiskScore sampleOpportunity 0)
      (num (AIDecisionEngine.calculateProfitProbability none sampleOpportunity))
      (num (AIDecisionEngine.analyzeMarketConditions 10))
      (num (AIDecisionEngine.getStrategyReliability none sampleOpportunity.type))
      (num (AIDecisionEngine.analyzeTimingFactors sampleOpportunity 0))) :=
  decisionEngine_scores_in_unit_interval sampleOpportunity 0 10 none none
    (by norm_num [sampleOpportunity])

/-- Counterexample to C3 as stated: at zero estimated profit and zero gas
estimate the risk score is NaN (JavaScript `0 / 0`), not a value in [0,1]. -/
theorem calculateRiskScore_nan_counterexample :
    AIDecisionEngine.calculateRiskScore zeroCostZeroProfitOpportunity 0 = JSNum.nan ∧
    ¬ isUnit (AIDecisionEngine.calculateRiskScore zeroCostZeroProfitOpportunity 0) := by
  have h : AIDecisionEngine.calculateRiskScore zeroCostZeroProfitOpportunity 0 = JSNum.nan := by
    norm_num [AIDecisionEngine.calculateRiskScore, AIDecisionEngine.typeRisk,
      jdiv, jadd, jmin, jmax, clamp01, zeroCostZeroProfitOpportunity]
  refine ⟨h, ?_⟩
  rw [h]
  rintro ⟨q, hq, -, -⟩
  cases hq

/-- C1: `shouldExecuteTrade` accepts exactly when the confidence is at least
0.60, neither risk/confidence rejection clause fires
(risk > 0.70 with confidence < 0.85, or risk > 0.50 with confidence < 0.75),
the estimated profit in USD is at least 1.0, and the profit after gas
(profit − gasEstimate·50) is at least 0.5. -/
theorem shouldExecuteTrade_accept_iff (c r : ℚ) (o : Opportunity) :
    AIDecisionEngine.shouldExecuteTrade c r o = true ↔
      0.6 ≤ c ∧ ¬(0.7 < r ∧ c < 0.85) ∧ ¬(0.5 < r ∧ c < 0.75) ∧
      1.0 ≤ o.estimatedProfitUSD ∧ 0.5 ≤ o.estimatedProfitUSD - o.gasEstimate * 50 :=
  shouldExecuteTrade_iff c r o

/-- Witness for C1: both directions of the characterization at a concrete
accepted input. -/
theorem shouldExecuteTrade_accept_iff_witness :
    AIDecisionEngine.shouldExecuteTrade 0.9 0.2 sampleOpportunity = true :=
  (shouldExecuteTrade_accept_iff 0.9 0.2 sampleOpportunity).mpr
    (by norm_num [sampleOpportunity])

/-- One `updateStrategyPerformance` call preserves the window invariant. -/
theorem perfInv_update (st : AIDecisionEngine.PerfState) (t : StrategyType)
    (success : Bool) (profit : ℚ) (hst : PerfInv st) :
    PerfInv (AIDecisionEngine.updateStrategyPerformance st t success profit) := by
  intro t' p hp
  simp only [AIDecisionEngine.updateStrategyPerformance] at hp
  by_cases ht : t' = t
  · rw [if_pos ht, Option.some_inj] at hp
    have hlen : ((st t).getD AIDecisionEngine.emptyPerf).recentPerformance.length ≤ 100 := by
      cases hq : st t with
      | none => simp [hq, AIDecisionEngine.emptyPerf]
      | some q => simpa [hq] using (hst t q hq).1
    subst hp
    refine ⟨?_, rfl⟩
    generalize (if success then (1 : ℚ) else 0) = x
    split_ifs with hlong <;>
      simp only [List.length_tail, List.length_append, List.length_cons,
        List.length_nil, gt_iff_lt, not_lt] at hlen hlong ⊢ <;>
      omega
  · rw [if_neg ht] at hp
    exact hst t' p hp

/-- Any fold of `updateStrategyPerformance` calls preserves the invariant. -/
theorem perfInv_foldl (events : List (StrategyType × Bool × ℚ)) :
    ∀ st : AIDecisionEngine.PerfState, PerfInv st →
    PerfInv (events.foldl
      (fun st e => AIDecisionEngine.updateStrategyPerformance st e.1 e.2.1 e.2.2) st) := by
  induction events with
  | nil => exact fun st h => h
  | cons e rest ih => exact fun st h => ih _ (perfInv_update st e.1 e.2.1 e.2.2 h)

/-- C4: after any sequence of `updateStrategyPerformance` calls starting from
the fresh engine, every category's rolling window holds at most 100 entries
and the stored success rate equals the count of successful entries in the
window divided by the window length. -/
theorem rollingWindow_invariant
    (events : List (StrategyType × Bool × ℚ)) (t : StrategyType) (p : StrategyPerf)
    (hp : AIDecisionEngine.applyUpdates events t = some p) :
    p.recentPerformance.length ≤ 100 ∧
    p.successRate = (((p.recentPerformance.filter (fun x => x == 1)).length : ℚ) /
      (p.recentPerformance.length : ℚ)) := by
  have hinit : PerfInv AIDecisionEngine.initialPerfState := by
    intro t' p' hp'
    simp [AIDecisionEngine.initialPerfState] at hp'
  exact perfInv_foldl events AIDecisionEngine.initialPerfState hinit t p hp

/-- Witness for C4: one successful trade in the ARBITRAGE category. -/
theorem rollingWindow_invariant_witness :
    oneTradePerf.recentPerformance.length ≤ 100 ∧
    oneTradePerf.successRate =
      (((oneTradePerf.recentPerformance.filter (fun x => x == 1)).length : ℚ) /
        (oneTradePerf.recentPerformance.length : ℚ)) :=
  rollingWindow_invariant [(.ARBITRAGE, true, 5)] .ARBITRAGE oneTradePerf
    (by norm_num [AIDecisionEngine.applyUpdates, AIDecisionEngine.updateStrategyPerformance,
      AIDecisionEngine.initialPerfState, AIDecisionEngine.emptyPerf, oneTradePerf, List.filter])

/-- C6: holding the risk score and the opportunity fixed, the accept decision
is monotone in confidence — if the engine accepts at confidence `c1 ≤ c2`
then it accepts at `c2`. -/
theorem shouldExecuteTrade_monotone_confidence (o : Opportunity) (r c1 c2 : ℚ)
    (hc : c1 ≤ c2) (h : AIDecisionEngine.shouldExecuteTrade c1 r o = true) :
    AIDecisionEngine.shouldExecuteTrade c2 r o = true := by
  rw [shouldExecuteTrade_iff] at h ⊢
  obtain ⟨h1, h2, h3, h4, h5⟩ := h
  refine ⟨le_trans h1 hc, ?_, ?_, h4, h5⟩
  · rintro ⟨hr, hlt⟩; exact h2 ⟨hr, lt_of_le_of_lt hc hlt⟩
  · rintro ⟨hr, hlt⟩; exact h3 ⟨hr, lt_of_le_of_lt hc hlt⟩

/-- Witness for C6 at concrete confidences 0.8 ≤ 0.95. -/
theorem shouldExecuteTrade_monotone_confidence_witness :
    AIDecisionEngine.shouldExecuteTrade 0.95 0.2 sampleOpportunity = true :=
  shouldExecuteTrade_monotone_confidence sampleOpportunity 0.2 0.8 0.95
    (by norm_num)
    (by norm_num [AIDecisionEngine.shouldExecuteTrade, sampleOpportunity])

/-- `updateStrategyPerformance` replaces exactly the (first) record carrying
the requested id and leaves every other record untouched. -/
theorem updateStrategyPerformance_replaces (pre post : List Strategy)
    (s : Strategy) (result : TradeResult) (now : ℚ)
    (hpre : ∀ x ∈ pre, x.id ≠ s.id) :
    StrategyRegistry.updateStrategyPerformance (pre ++ s :: post) s.id result now =
      pre ++ StrategyRegistry.applyOutcome s result now :: post := by
  induction pre with
  | nil => simp [StrategyRegistry.updateStrategyPerformance]
  | cons x xs ih =>
    have hx : x.id ≠ s.id := hpre x (List.mem_cons_self x xs)
    simp only [List.cons_append, StrategyRegistry.updateStrategyPerformance, if_neg hx]
    exact congrArg (List.cons x) (ih (fun y hy => hpre y (List.mem_cons_of_mem x hy)))

/-- C5: for a strategy id present in the catalog, recording an outcome
rewrites only that record: the trade count goes up by one; on success the
profitable count goes up by one and the realized profit is added; the stored
success rate becomes profitable/total, the average execution time follows
the incremental mean with the new total, and the last-executed stamp is set;
every other field — and every other record — is unchanged. -/
theorem recordOutcome_spec (pre post : List Strategy)
    (s : Strategy) (result : TradeResult) (now : ℚ)
    (hpre : ∀ x ∈ pre, x.id ≠ s.id) :
    StrategyRegistry.updateStrategyPerformance (pre ++ s :: post) s.id result now =
      pre ++ StrategyRegistry.applyOutcome s result now :: post ∧
    (StrategyRegistry.applyOutcome s result now).totalTrades = s.totalTrades + 1 ∧
    (StrategyRegistry.applyOutcome s result now).profitabletrades =
      s.profitabletrades + (if result.success then 1 else 0) ∧
    (StrategyRegistry.applyOutcome s result now).totalProfitUSD =
      s.totalProfitUSD + (if result.success then result.profitUSD.getD 0 else 0) ∧
    (StrategyRegistry.applyOutcome s result now).successRate =
      (((StrategyRegistry.applyOutcome s result now).profitabletrades : ℚ) /
        ((StrategyRegistry.applyOutcome s result now).totalTrades : ℚ)) ∧
    (StrategyRegistry.applyOutcome s result now).averageExecutionTime =
      ((s.averageExecutionTime * (((s.totalTrades : ℚ) + 1) - 1) + result.executionTime) /
        ((s.totalTrades : ℚ) + 1)) ∧
    (StrategyRegistry.applyOutcome s result now).lastExecuted = some now ∧
    (StrategyRegistry.applyOutcome s result now).id = s.id ∧
    (StrategyRegistry.applyOutcome s result now).name = s.name ∧
    (StrategyRegistry.applyOutcome s result now).type = s.type ∧
    (StrategyRegistry.applyOutcome s result now).riskLevel = s.riskLevel ∧
    (StrategyRegistry.applyOutcome s result now).enabled = s.enabled ∧
    (StrategyRegistry.applyOutcome s result now).priority = s.priority ∧
    (StrategyRegistry.applyOutcome s result now).minProfitUSD = s.minProfitUSD ∧
    (StrategyRegistry.applyOutcome s result now).maxGasPrice = s.maxGasPrice ∧
    (StrategyRegistry.applyOutcome s result now).parameters = s.parameters := by
  refine ⟨updateStrategyPerformance_replaces pre post s result now hpre,
    rfl, ?_, ?_, rfl, ?_, rfl, rfl, rfl, rfl, rfl, rfl, rfl, rfl, rfl, rfl⟩
  · by_cases hs : result.success <;> simp [StrategyRegistry.applyOutcome, hs]
  · by_cases hs : result.success <;> simp [StrategyRegistry.applyOutcome, hs]
  · simp only [StrategyRegistry.applyOutcome]
    push_cast
    ring_nf

/-- Witness for C5: the registry update at a concrete one-element catalog. -/
theorem recordOutcome_spec_witness :
    StrategyRegistry.updateStrategyPerformance [sampleStrategy] sampleStrategy.id
        sampleTradeResult 42 =
      [StrategyRegistry.applyOutcome sampleStrategy sampleTradeResult 42] :=
  (recordOutcome_spec [] [] sampleStrategy sampleTradeResult 42
    (by intro x hx; cases hx)).1

/-- C10: updating performance for an identifier absent from the registry is
a no-op — no error and no change to any record. -/
theorem updateStrategyPerformance_absent_noop (rs : List Strategy) (id : String)
    (result : TradeResult) (now : ℚ) (h : ∀ s ∈ rs, s.id ≠ id) :
    StrategyRegistry.updateStrategyPerformance rs id result now = rs := by
  induction rs with
  | nil => rfl
  | cons x xs ih =>
    have hx : x.id ≠ id := h x (List.mem_cons_self x xs)
    simp only [StrategyRegistry.updateStrategyPerformance, if_neg hx]
    rw [ih (fun s hs => h s (List.mem_cons_of_mem x hs))]

/-- Witness for C10 at a concrete registry and missing id. -/
theorem updateStrategyPerformance_absent_noop_witness :
    StrategyRegistry.updateStrategyPerformance [sampleStrategy] "no-such-id"
      sampleTradeResult 0 = [sampleStrategy] :=
  updateStrategyPerformance_absent_noop [sampleStrategy] "no-such-id"
    sampleTradeResult 0
    (by
      intro s hs
      rw [List.mem_singleton] at hs
      subst hs
      simp [sampleStrategy])

/-- C9: enqueue on a queue already holding `maxQueueSize` (one million)
items leaves the queue unchanged (the call neither blocks nor throws — it is
a total function); below capacity the opportunity is appended at the tail. -/
theorem addOpportunity_bounded (queue : List Opportunity) (o : Opportunity) :
    (queue.length = UltraHighFrequencyEngine.maxQueueSize →
      UltraHighFrequencyEngine.addOpportunity queue o = queue) ∧
    (queue.length < UltraHighFrequencyEngine.maxQueueSize →
      UltraHighFrequencyEngine.addOpportunity queue o = queue ++ [o]) := by
  constructor
  · intro h
    simp [UltraHighFrequencyEngine.addOpportunity, h]
  · intro h
    simp [UltraHighFrequencyEngine.addOpportunity, h]

/-- Witness for C9: a queue of exactly one million items drops the new
opportunity; the empty queue appends it. -/
theorem addOpportunity_bounded_witness :
    UltraHighFrequencyEngine.addOpportunity
        (List.replicate UltraHighFrequencyEngine.maxQueueSize sampleOpportunity)
        sampleOpportunity =
      List.replicate UltraHighFrequencyEngine.maxQueueSize sampleOpportunity ∧
    UltraHighFrequencyEngine.addOpportunity [] sampleOpportunity = [sampleOpportunity] := by
  constructor
  · exact (addOpportunity_bounded _ sampleOpportunity).1 (List.length_replicate _ _)
  · exact (addOpportunity_bounded [] sampleOpportunity).2
      (by simp [UltraHighFrequencyEngine.maxQueueSize])

/-- A stable descending insert puts the element before the first entry whose
key is not larger; its head is whichever of the two candidates wins. -/
theorem mem_insertKeyDesc {α β : Type} [LinearOrder β] (key : α → β) (x a : α) :
    ∀ l : List α, a ∈ insertKeyDesc key x l ↔ a = x ∨ a ∈ l := by
  intro l
  induction l with
  | nil => simp [insertKeyDesc]
  | cons y ys ih =>
    simp only [insertKeyDesc]
    split_ifs with h
    · simp [List.mem_cons]
    · simp only [List.mem_cons, ih]
      tauto

/-- Membership is preserved by the stable descending sort. -/
theorem mem_sortKeyDesc {α β : Type} [LinearOrder β] (key : α → β) (a : α) :
    ∀ l : List α, a ∈ sortKeyDesc key l ↔ a ∈ l := by
  intro l
  induction l with
  | nil => simp [sortKeyDesc]
  | cons x xs ih =>
    simp only [sortKeyDesc, mem_insertKeyDesc, ih, List.mem_cons]

/-- The stable descending insert keeps descending order. -/
theorem pairwise_insertKeyDesc {α β : Type} [LinearOrder β] (key : α → β) (x : α)
    (l : List α) (h : l.Pairwise (fun a b => key b ≤ key a)) :
    (insertKeyDesc key x l).Pairwise (fun a b => key b ≤ key a) := by
  induction l with
  | nil => simp [insertKeyDesc]
  | cons y ys ih =>
    rcases List.pairwise_cons.mp h with ⟨hy, hys⟩
    simp only [insertKeyDesc]
    split_ifs with hxy
    · refine List.pairwise_cons.mpr ⟨?_, h⟩
      intro z hz
      rcases List.mem_cons.mp hz with rfl | hz'
      · exact hxy
      · exact le_trans (hy z hz') hxy
    · refine List.pairwise_cons.mpr ⟨?_, ih hys⟩
      intro z hz
      rcases (mem_insertKeyDesc key x z ys).mp hz with rfl | hz'
      · exact le_of_not_le hxy
      · exact hy z hz'

/-- The stable descending sort produces a descending list. -/
theorem pairwise_sortKeyDesc {α β : Type} [LinearOrder β] (key : α → β) :
    ∀ l : List α, (sortKeyDesc key l).Pairwise (fun a b => key b ≤ key a) := by
  intro l
  induction l with
  | nil => simp [sortKeyDesc]
  | cons x xs ih => exact pairwise_insertKeyDesc key x _ ih

/-- Stability of the insert, phrased through key-filtering: inserting `x`
prepends it to the entries of its own key and leaves every other key class
untouched (the entries skipped over all have strictly larger keys). -/
theorem filter_insertKeyDesc {α β : Type} [LinearOrder β] [DecidableEq β]
    (key : α → β) (x : α) (q : β) :
    ∀ l : List α,
      (insertKeyDesc key x l).filter (fun a => key a == q) =
        if key x = q then x :: l.filter (fun a => key a == q)
        else l.filter (fun a => key a == q) := by
  intro l
  induction l with
  | nil =>
    simp only [insertKeyDesc, List.filter_cons, List.filter_nil, beq_iff_eq]
  | cons y ys ih =>
    simp only [insertKeyDesc]
    by_cases hxy : key y ≤ key x
    · rw [if_pos hxy]
      simp only [List.filter_cons, beq_iff_eq]
    · rw [if_neg hxy]
      have hlt : key x < key y := lt_of_not_le hxy
      simp only [List.filter_cons, beq_iff_eq, ih]
      by_cases hyq : key y = q
      · have hxq : key x ≠ q := by
          rw [← hyq]
          exact ne_of_lt hlt
        simp [hyq, hxq]
      · by_cases hxq : key x = q <;> simp [hyq, hxq]

/-- Stability of the sort: each key class of the output is the key class of
the input in input order. -/
theorem filter_sortKeyDesc {α β : Type} [LinearOrder β] [DecidableEq β]
    (key : α → β) (q : β) :
    ∀ l : List α,
      (sortKeyDesc key l).filter (fun a => key a == q) =
        l.filter (fun a => key a == q) := by
  intro l
  induction l with
  | nil => rfl
  | cons x xs ih =>
    simp only [sortKeyDesc]
    rw [filter_insertKeyDesc key x q (sortKeyDesc key xs), ih]
    simp only [List.filter_cons, beq_iff_eq]

/-- `firstMaxBy` finds nothing exactly on the empty list. -/
theorem firstMaxBy_eq_none {α β : Type} [LinearOrder β] (key : α → β) :
    ∀ l : List α, firstMaxBy key l = none ↔ l = [] := by
  intro l
  cases l with
  | nil => simp [firstMaxBy]
  | cons x xs =>
    cases h : firstMaxBy key xs with
    | none => simp [firstMaxBy, h]
    | some y =>
      simp only [firstMaxBy, h, List.cons_ne_nil, iff_false]
      split_ifs <;> simp

/-- The head of the stable descending sort is the first element of maximal
key. -/
theorem head_sortKeyDesc {α β : Type} [LinearOrder β] (key : α → β) :
    ∀ l : List α, (sortKeyDesc key l).head? = firstMaxBy key l := by
  intro l
  induction l with
  | nil => rfl
  | cons x xs ih =>
    simp only [sortKeyDesc, firstMaxBy, ← ih]
    cases h : sortKeyDesc key xs with
    | nil => simp [insertKeyDesc, h]
    | cons y ys =>
      simp only [h, insertKeyDesc, List.head?]
      split_ifs <;> rfl

/-- What `firstMaxBy` returns: a member of the list, of maximal key, coming
before every other maximal-key element (all elements preceding it have
strictly smaller keys). -/
theorem firstMaxBy_spec {α β : Type} [LinearOrder β] (key : α → β) :
    ∀ (l : List α) (s : α), firstMaxBy key l = some s →
      s ∈ l ∧ (∀ a ∈ l, key a ≤ key s) ∧
      ∃ pre post, l = pre ++ s :: post ∧ ∀ a ∈ pre, key a < key s := by
  intro l
  induction l with
  | nil => intro s h; cases h
  | cons x xs ih =>
    intro s h
    cases hxs : firstMaxBy key xs with
    | none =>
      simp only [firstMaxBy, hxs, Option.some_inj] at h
      subst h
      have hnil : xs = [] := (firstMaxBy_eq_none key xs).mp hxs
      subst hnil
      exact ⟨List.mem_cons_self x [], by simp, [], [], rfl, by simp⟩
    | some y =>
      simp only [firstMaxBy, hxs] at h
      obtain ⟨hymem, hybound, pre, post, heq, hpre⟩ := ih y hxs
      by_cases hxy : key y ≤ key x
      · rw [if_pos hxy, Option.some_inj] at h
        subst h
        refine ⟨List.mem_cons_self x xs, ?_, [], xs, rfl, by simp⟩
        intro a ha
        rcases List.mem_cons.mp ha with rfl | ha'
        · exact le_refl _
        · exact le_trans (hybound a ha') hxy
      · rw [if_neg hxy, Option.some_inj] at h
        subst h
        have hlt : key x < key y := lt_of_not_le hxy
        refine ⟨List.mem_cons_of_mem x hymem, ?_, x :: pre, post, by rw [heq, List.cons_append], ?_⟩
        · intro a ha
          rcases List.mem_cons.mp ha with rfl | ha'
          · exact le_of_lt hlt
          · exact hybound a ha'
        · intro a ha
          rcases List.mem_cons.mp ha with rfl | ha'
          · exact hlt
          · exact hpre a ha'

/-- C7 (amended): once the AI confidence gate passes, `executeOpportunity`
rejects with "no strategy available" exactly when no registered strategy —
enabled or not — matches the opportunity category; otherwise it executes
the category match of maximal priority that comes first in registration
order (ties by priority fall back to registration order; the `enabled`
flag is not consulted). -/
theorem executeOpportunity_selection (aiProbability threshold : ℚ)
    (rs : List Strategy) (t : StrategyType)
    (hgate : ¬ aiProbability < threshold) :
    (UltraHighFrequencyEngine.executeOpportunity aiProbability threshold rs t =
        .rejectedNoStrategy ↔ StrategyRegistry.getStrategiesByType rs t = []) ∧
    (∀ s : Strategy,
      UltraHighFrequencyEngine.executeOpportunity aiProbability threshold rs t =
        .executed s →
      s.type = t ∧
      (∀ a ∈ StrategyRegistry.getStrategiesByType rs t, a.priority ≤ s.priority) ∧
      ∃ pre post, StrategyRegistry.getStrategiesByType rs t = pre ++ s :: post ∧
        ∀ a ∈ pre, a.priority < s.priority) := by
  have hsel : UltraHighFrequencyEngine.selectStrategy rs t =
      firstMaxBy Strategy.priority (StrategyRegistry.getStrategiesByType rs t) :=
    head_sortKeyDesc Strategy.priority (StrategyRegistry.getStrategiesByType rs t)
  simp only [UltraHighFrequencyEngine.executeOpportunity, if_neg hgate, hsel]
  cases hfm : firstMaxBy Strategy.priority (StrategyRegistry.getStrategiesByType rs t) with
  | none =>
    refine ⟨by simp [(firstMaxBy_eq_none _ _).mp hfm], ?_⟩
    intro s hs
    cases hs
  | some s0 =>
    obtain ⟨hmem, hbound, pre, post, heq, hpre⟩ := firstMaxBy_spec Strategy.priority _ s0 hfm
    constructor
    · simp only []
      constructor
      · intro hcon
        cases hcon
      · intro hempty
        rw [hempty] at hmem
        cases hmem
    · intro s hs
      have hss : s0 = s := by
        cases hs
        rfl
      subst hss
      have htype : s0.type = t := by
        have := (List.mem_filter.mp hmem).2
        exact of_decide_eq_true this
      exact ⟨htype, hbound, pre, post, heq, hpre⟩

/-- Witness for C7: with the gate passed and a registry holding only an
ARBITRAGE strategy, an MEV opportunity is rejected for lack of a matching
strategy. -/
theorem executeOpportunity_selection_witness :
    UltraHighFrequencyEngine.executeOpportunity 1 0.5 [sampleStrategy] .MEV =
      .rejectedNoStrategy :=
  (executeOpportunity_selection 1 0.5 [sampleStrategy] .MEV (by norm_num)).1.mpr
    (by simp [StrategyRegistry.getStrategiesByType, sampleStrategy])

/-- Counterexample to C7 as stated: the selection does not require the
strategy to be enabled — with a single matching but disabled strategy the
engine executes it instead of producing a rejected outcome. -/
theorem executeOpportunity_disabled_counterexample :
    UltraHighFrequencyEngine.executeOpportunity 1 0.7 [disabledStrategy] .ARBITRAGE =
      .executed disabledStrategy ∧
    disabledStrategy.enabled = false := by
  constructor
  · have hgate : ¬ (1 : ℚ) < 0.7 := by norm_num
    simp [UltraHighFrequencyEngine.executeOpportunity, if_neg hgate,
      UltraHighFrequencyEngine.selectStrategy, StrategyRegistry.getStrategiesByType,
      sortKeyDesc, insertKeyDesc, disabledStrategy, sampleStrategy]
  · rfl

/-- C8 (amended): `getTopPerformingStrategies` returns at most `limit`
records, all with at least one recorded trade and drawn from the registry,
ordered by success rate × cumulative profit descending; ties are broken by
registration order (the stable sort keeps equal-score records in input
order), not by identifier. -/
theorem getTopPerformingStrategies_spec (rs : List Strategy) (limit : ℕ) :
    (StrategyRegistry.getTopPerformingStrategies rs limit).length ≤ limit ∧
    (∀ s ∈ StrategyRegistry.getTopPerformingStrategies rs limit,
      0 < s.totalTrades ∧ s ∈ rs) ∧
    (StrategyRegistry.getTopPerformingStrategies rs limit).Pairwise
      (fun a b => StrategyRegistry.perfScore b ≤ StrategyRegistry.perfScore a) ∧
    (∀ q : ℚ,
      (sortKeyDesc StrategyRegistry.perfScore
        (rs.filter (fun s => decide (0 < s.totalTrades)))).filter
          (fun s => StrategyRegistry.perfScore s == q) =
      (rs.filter (fun s => decide (0 < s.totalTrades))).filter
        (fun s => StrategyRegistry.perfScore s == q)) := by
  refine ⟨?_, ?_, ?_, fun q => filter_sortKeyDesc StrategyRegistry.perfScore q _⟩
  · exact List.length_take_le _ _
  · intro s hs
    have hs1 : s ∈ sortKeyDesc StrategyRegistry.perfScore
        (rs.filter (fun s => decide (0 < s.totalTrades))) :=
      List.take_subset _ _ hs
    have hs2 := (mem_sortKeyDesc StrategyRegistry.perfScore s _).mp hs1
    have hs3 := List.mem_filter.mp hs2
    exact ⟨of_decide_eq_true hs3.2, hs3.1⟩
  · exact List.Pairwise.sublist (List.take_sublist _ _)
      (pairwise_sortKeyDesc StrategyRegistry.perfScore _)

/-- Witness for C8: the membership clause at a concrete two-record registry. -/
theorem getTopPerformingStrategies_spec_witness :
    0 < tieStrategyB.totalTrades ∧ tieStrategyB ∈ [tieStrategyB, tieStrategyA] := by
  have heval : StrategyRegistry.getTopPerformingStrategies
      [tieStrategyB, tieStrategyA] 10 = [tieStrategyB, tieStrategyA] := by
    norm_num [StrategyRegistry.getTopPerformingStrategies, StrategyRegistry.perfScore,
      sortKeyDesc, insertKeyDesc, tieStrategyA, tieStrategyB, sampleStrategy,
      List.filter_cons]
  have hmem : tieStrategyB ∈ StrategyRegistry.getTopPerformingStrategies
      [tieStrategyB, tieStrategyA] 10 := by
    rw [heval]
    exact List.mem_cons_self _ _
  exact (getTopPerformingStrategies_spec [tieStrategyB, tieStrategyA] 10).2.1
    tieStrategyB hmem

/-- Counterexample to C8 as stated: two records with identical scores come
out in registration order ("b" before "a"), not in identifier order — the
tie is not broken by identifier. -/
theorem getTopPerformingStrategies_id_tie_counterexample :
    StrategyRegistry.getTopPerformingStrategies [tieStrategyB, tieStrategyA] 10 =
      [tieStrategyB, tieStrategyA] ∧
    getTopPerformingStrategiesIdTie [tieStrategyB, tieStrategyA] 10 =
      [tieStrategyA, tieStrategyB] ∧
    StrategyRegistry.perfScore tieStrategyB = StrategyRegistry.perfScore tieStrategyA ∧
    tieStrategyA.id < tieStrategyB.id ∧
    StrategyRegistry.getTopPerformingStrategies [tieStrategyB, tieStrategyA] 10 ≠
      getTopPerformingStrategiesIdTie [tieStrategyB, tieStrategyA] 10 := by
  have hba : ¬ (("b" : String) ≤ "a") := by
    rw [String.le_iff_toList_le]
    decide
  have h1 : StrategyRegistry.getTopPerformingStrategies
      [tieStrategyB, tieStrategyA] 10 = [tieStrategyB, tieStrategyA] := by
    norm_num [StrategyRegistry.getTopPerformingStrategies, StrategyRegistry.perfScore,
      sortKeyDesc, insertKeyDesc, tieStrategyA, tieStrategyB, sampleStrategy,
      List.filter_cons]
  have h2 : getTopPerformingStrategiesIdTie [tieStrategyB, tieStrategyA] 10 =
      [tieStrategyA, tieStrategyB] := by
    norm_num [getTopPerformingStrategiesIdTie, sortScoreIdTie, insertScoreIdTie,
      StrategyRegistry.perfScore, tieStrategyA, tieStrategyB, sampleStrategy,
      List.filter_cons, hba]
  have hne : tieStrategyB ≠ tieStrategyA := by
    intro hEq
    have hid := congrArg Strategy.id hEq
    have : ¬ (tieStrategyB.id = tieStrategyA.id) := by decide
    exact this hid
  refine ⟨h1, h2, by norm_num [StrategyRegistry.perfScore, tieStrategyA, tieStrategyB,
    sampleStrategy], ?_, ?_⟩
  · show ("a" : String) < "b"
    rw [String.lt_iff_toList_lt]
    decide
  · intro hEq
    rw [h1, h2] at hEq
    have hhead := congrArg List.head? hEq
    simp only [List.head?] at hhead
    rw [Option.some_inj] at hhead
    exact hne hhead

end Con20
